import Mathlib

/-!
Shallow embedding of the noded scene-compilation and progressive-rendering
pipeline (a node-graph 3D editor with a progressive GPU ray tracer).

Conventions of the embedding:
* machine floats (`f32`/`f64`) are modelled as exact rationals `ℚ`; the float
  casts in the source (`as f32` etc.) are the identity on this model;
* `u32` counters are modelled as `Nat` (no claim exercises wrap-around);
* fallible or panicking code paths are modelled with `Option`: a result of
  `none` stands for a Rust panic (array-index panic, `%` by zero, `expect`);
* external I/O (image decoding in `TextureData::load_scaled`) is a black box
  fully determined by its arguments (path, scale); compile functions also
  return a trace of the `load_scaled` invocations they perform, so that
  "the image is not re-decoded" is observable in the model.
-/

/-- Decidable equality for `Except`, used to evaluate validator results. -/
instance {ε α : Type} [DecidableEq ε] [DecidableEq α] : DecidableEq (Except ε α) := fun a b =>
  match a, b with
  | .error e, .error f =>
    if h : e = f then isTrue (by rw [h]) else isFalse (fun hc => h (by cases hc; rfl))
  | .ok x, .ok y =>
    if h : x = y then isTrue (by rw [h]) else isFalse (fun hc => h (by cases hc; rfl))
  | .error _, .ok _ => isFalse (fun hc => Except.noConfusion hc)
  | .ok _, .error _ => isFalse (fun hc => Except.noConfusion hc)

namespace Noded

abbrev NodeId := Nat

/-- Typed pin from src/types.rs: `initial` plus an optional override `value`. -/
structure NodePin (α : Type) where
  initial : α
  value : Option α
deriving DecidableEq

namespace NodePin

variable {α : Type}

/-- `NodePin::new(initial)`. -/
def new (a : α) : NodePin α := ⟨a, none⟩

/-- `NodePin::get` (also `as_ref`): the override if present, else the initial. -/
def get (p : NodePin α) : α := p.value.getD p.initial

/-- `NodePin::set(value)`: install an override. -/
def set (p : NodePin α) (v : α) : NodePin α := { p with value := some v }

/-- `NodePin::set_initial`. -/
def set_initial (p : NodePin α) (a : α) : NodePin α := { p with initial := a }

/-- `NodePin::reset`: clear the override (invoked on disconnect). -/
def reset (p : NodePin α) : NodePin α := { p with value := none }

end NodePin

/-- `nalgebra::Vector3<f64>`, modelled with exact rationals. -/
abbrev Vec3 := ℚ × ℚ × ℚ

/-- `egui::Color32` (four `u8` channels). -/
structure Color where
  r : Nat
  g : Nat
  b : Nat
  a : Nat
deriving DecidableEq

/-- Decoded pixel data of src/raytracer/texture.rs, kept abstract: the three
constructors record which of the three construction paths produced the pixels
(`new_from_color` after the gamma conversion of a `Color32`, `new_from_color`
on a raw rgb triple, and the external image decode `new_from_scaled_image`). -/
inductive Texture where
  | fromColorGamma (c : Color)
  | fromRgb (v : Vec3)
  | fromScaledImage (path : String) (scale : ℚ)
deriving DecidableEq

/-- `TextureData` from src/raytracer/scene.rs: pixels, optional content key,
and scale; key plus scale is the dedup identity. -/
structure TextureData where
  texture : Texture
  key : Option String
  scale : ℚ
deriving DecidableEq

/-- `TextureData::new`: no key, scale 1. -/
def TextureData.new (t : Texture) : TextureData := ⟨t, none, 1⟩

/-- `TextureData::load_scaled(path, scale)`: external image decode (black box
determined by path and scale), keyed by the path. -/
def TextureData.load_scaled (path : String) (scale : ℚ) : TextureData :=
  ⟨.fromScaledImage path scale, some path, scale⟩

/-- Flat `Sphere` of src/raytracer/scene.rs (padding fields dropped). -/
structure SphereFlat where
  center : Vec3
  radius : ℚ
  material_idx : Nat
deriving DecidableEq

/-- Flat `Material` of src/raytracer/scene.rs, referencing texture indices. -/
inductive MaterialFlat where
  | lambertian (albedo : Nat)
  | metal (albedo : Nat) (fuzz : ℚ)
  | dielectric (refraction_index : ℚ)
  | checkerboard (even : Nat) (odd : Nat)
  | emissive (emit : Nat)
deriving DecidableEq

/-- Compiled `Scene` of src/raytracer/scene.rs. -/
structure SceneFlat where
  spheres : List SphereFlat
  materials : List MaterialFlat
  textures : List TextureData
deriving DecidableEq

/-- `Scene::default()`: empty vectors. -/
instance : Inhabited SceneFlat := ⟨⟨[], [], []⟩⟩

/-- `MetalNode` (src/node/material/metal.rs). -/
structure MetalNode where
  albedo : NodePin Color
  fuzz : NodePin ℚ
  texture : NodePin (Option NodeId)
deriving DecidableEq

/-- `DielectricNode` (src/node/material/dielectric.rs). -/
structure DielectricNode where
  ior : NodePin ℚ
deriving DecidableEq

/-- `LambertianNode` (src/node/material/lambertian.rs). -/
structure LambertianNode where
  albedo : NodePin Color
  texture : NodePin (Option NodeId)
deriving DecidableEq

/-- `EmissiveNode` (src/node/material/emissive.rs): emit is a `Vector3`. -/
structure EmissiveNode where
  emit : NodePin Vec3
  texture : NodePin (Option NodeId)
deriving DecidableEq

/-- `CheckerboardNode` (src/node/material/checkerboard.rs). -/
structure CheckerboardNode where
  even : NodePin Color
  odd : NodePin Color
deriving DecidableEq

/-- `MaterialNode` tagged union (src/node/material). -/
inductive MaterialNode where
  | metal (m : MetalNode)
  | dielectric (d : DielectricNode)
  | lambertian (l : LambertianNode)
  | emissive (e : EmissiveNode)
  | checkerboard (c : CheckerboardNode)
deriving DecidableEq

/-- Modelled from the spec: `InputMaterial` lives in the material module file
that is absent from src/ (only its users are present). Per §4.5 step 6 a
sphere's material input is either specified inline (an embedded material
node value) or wired from an external Material node (a node id). -/
inductive InputMaterial where
  | internal (m : MaterialNode)
  | external (id : NodeId)
deriving DecidableEq

/-- Modelled from the spec: `MaterialNode::get_texture_node_id` (material
module file absent from src/). Metal, Lambertian and Emissive carry an
optional texture input pin (their collect handlers recurse into it);
Dielectric and Checkerboard have none. -/
def MaterialNode.get_texture_node_id : MaterialNode → Option NodeId
  | .metal m => m.texture.get
  | .lambertian l => l.texture.get
  | .emissive e => e.texture.get
  | .dielectric _ => none
  | .checkerboard _ => none

/-- `SphereNode` (src/node/primitive.rs). -/
structure SphereNode where
  center : NodePin Vec3
  radius : NodePin ℚ
  material : NodePin InputMaterial
deriving DecidableEq

/-- `PrimitiveNode` (src/node/primitive.rs). -/
inductive PrimitiveNode where
  | sphere (s : SphereNode)
deriving DecidableEq

/-- `TextureNode` (src/node/texture.rs). -/
structure TextureNode where
  path : String
  scale : NodePin ℚ
deriving DecidableEq

/-- `CollectionNode` (src/node/collection.rs): an ordered member list. -/
structure CollectionNode where
  nodes : List NodeId
deriving DecidableEq

-- `SceneDirtyFlags` bit values (src/node/scene.rs, bitflags over `u32`).
namespace SceneDirtyFlags

def NONE : Nat := 0

def TEXTURE_VALUE : Nat := 1

def TEXTURE_LAYOUT : Nat := 2

def MATERIAL_VALUE : Nat := 4

def MATERIAL_LAYOUT : Nat := 8

def PRIMITIVE_VALUE : Nat := 16

def PRIMITIVE_LAYOUT : Nat := 32

/-- `ALL = u32::MAX`. -/
def ALL : Nat := 4294967295

/-- `INIT = ALL - 1`, the default dirty state of a fresh Scene node. -/
def INIT : Nat := 4294967294

end SceneDirtyFlags

/-- `SceneNode` (src/node/scene.rs). -/
structure SceneNode where
  data : NodePin (Option NodeId)
  inner_scene : SceneFlat
  tracked_nodes : List NodeId
  dirty : Nat
deriving DecidableEq

/-- The `Node` tagged union (src/node.rs), restricted to the kinds whose
`CollectIds` handling is distinguishable: `render` is the raytracer render
node (recurses into its camera and scene inputs) and `other` stands for every
remaining kind, all of which use the default no-op `CollectIds` handler
(camera, output, number, string, color, vector, expression, triangle render). -/
inductive Node where
  | material (m : MaterialNode)
  | texture (t : TextureNode)
  | primitive (p : PrimitiveNode)
  | collection (c : CollectionNode)
  | scene (s : SceneNode)
  | render (camera : NodePin (Option NodeId)) (sceneId : Option NodeId)
  | other
deriving DecidableEq

/-- The arena (`Snarl<Node>`): node lookup by id; `none` means the id is not
allocated (indexing it in the source panics). -/
abbrev Snarl := NodeId → Option Node

/-- The node ids a node's `handle_input_collect_ids` recurses into, in order
(src/node/scene.rs, collection.rs, primitive.rs, material/:.rs,
render/raytracer.rs). -/
def childIds : Node → List NodeId
  | .material m => m.get_texture_node_id.toList
  | .texture _ => []
  | .primitive (.sphere s) =>
    match s.material.get with
    | .external id => [id]
    | .internal _ => []
  | .collection c => c.nodes
  | .scene s => s.data.get.toList
  | .render camera sceneId => camera.get.toList ++ sceneId.toList
  | .other => []

/-- The predicate used by `SceneNode::handle_recalculate`: Primitive,
Material, Texture or Collection. -/
def scenePred : Node → Bool
  | .material _ => true
  | .texture _ => true
  | .primitive _ => true
  | .collection _ => true
  | _ => false

/-- `FastIndexSet::insert`: append if absent, keep the old position else. -/
def insertSet (l : List NodeId) (id : NodeId) : List NodeId :=
  if id ∈ l then l else l ++ [id]

/-- The sequential traversal of a child list, threading the destination set;
this is the `for node_id in nodes` loop body shape shared by the collect
handlers. -/
def collectChildren (f : Option NodeId → List NodeId → Option (List NodeId)) :
    List NodeId → List NodeId → Option (List NodeId)
  | [], dest => some dest
  | id :: rest, dest =>
    match f (some id) dest with
    | none => none
    | some dest1 => collectChildren f rest dest1

/-- `collect_for_node` (src/node.rs): recursively dispatch `CollectIds` into
the node's inputs, then insert the node itself if the predicate holds
(post-order: children are inserted before their parents). The source has no
visited set and no depth bound; the model makes the recursion depth explicit
with fuel, `none` meaning the fuel was exhausted (or a missing id was
indexed, which panics in the source). -/
def collect_for_node (pred : Node → Bool) (snarl : Snarl) :
    Nat → Option NodeId → List NodeId → Option (List NodeId)
  | _, none, dest => some dest
  | 0, some _, _ => none
  | fuel + 1, some id, dest =>
    match snarl id with
    | none => none
    | some node =>
      match collectChildren (collect_for_node pred snarl fuel) (childIds node) dest with
      | none => none
      | some dest1 => some (if pred node then insertSet dest1 id else dest1)

/-! ## Scene compiler (the compile loop of `SceneNode::handle_recalculate`) -/

/-- `Material::from_node` (src/raytracer/scene.rs): build the flat material,
resolving the texture reference to `texture_id` when given, otherwise pushing
a fresh one-pixel color texture; returns the material together with the
extended texture list. -/
def MaterialFlat.from_node (materialNode : MaterialNode) (textureId : Option Nat)
    (textures : List TextureData) : MaterialFlat × List TextureData :=
  match materialNode with
  | .metal metalNode =>
    match textureId with
    | some i => (.metal i metalNode.fuzz.get, textures)
    | none =>
      (.metal textures.length metalNode.fuzz.get,
        textures ++ [TextureData.new (.fromColorGamma metalNode.albedo.get)])
  | .dielectric dielectricNode => (.dielectric dielectricNode.ior.get, textures)
  | .lambertian lambertianNode =>
    match textureId with
    | some i => (.lambertian i, textures)
    | none =>
      (.lambertian textures.length,
        textures ++ [TextureData.new (.fromColorGamma lambertianNode.albedo.get)])
  | .emissive emissiveNode =>
    match textureId with
    | some i => (.emissive i, textures)
    | none =>
      (.emissive textures.length,
        textures ++ [TextureData.new (.fromRgb emissiveNode.emit.get)])
  | .checkerboard checkerboardNode =>
    (.checkerboard textures.length (textures.length + 1),
      textures ++ [TextureData.new (.fromColorGamma checkerboardNode.even.get),
        TextureData.new (.fromColorGamma checkerboardNode.odd.get)])

/-- `Sphere::from_node` (src/raytracer/scene.rs). -/
def SphereFlat.from_node (sphereNode : SphereNode) (materialIdx : Nat) : SphereFlat :=
  ⟨sphereNode.center.get, sphereNode.radius.get, materialIdx⟩

/-- The mutable state of the compile loop in `SceneNode::handle_recalculate`
(src/node/scene.rs lines 223-278). Index maps are association lists with the
most recent insertion first (`HashMap::insert` overwrites). `loads` is the
observation trace of `TextureData::load_scaled` calls (external image
decodes) performed so far. -/
structure CompileSt where
  oldTextures : List TextureData
  textures : List TextureData
  texture_indices : List (NodeId × Nat)
  materials : List MaterialFlat
  material_indices : List (NodeId × Nat)
  spheres : List SphereFlat
  loads : List (String × ℚ)
deriving DecidableEq

/-- Fresh compile state over the previous scene's texture list. -/
def CompileSt.init (oldTextures : List TextureData) : CompileSt :=
  ⟨oldTextures, [], [], [], [], [], []⟩

/-- The texture-node dedup predicate of the compile loop:
`data.key.as_deref() == Some(path) && data.scale == scale`. -/
def texEq (path : String) (scale : ℚ) (d : TextureData) : Bool :=
  d.key == some path && d.scale == scale

/-- One iteration of the `for node_id in nodes` compile loop of
`SceneNode::handle_recalculate`, branching on the node kind. `none` models a
panic: an unallocated node id, or the `material_indices[node_id]` lookup of a
sphere's external material failing. -/
def compileStep (snarl : Snarl) (st : CompileSt) (nodeId : NodeId) : Option CompileSt :=
  match snarl nodeId with
  | none => none
  | some (.texture textureNode) =>
    let p := texEq textureNode.path textureNode.scale.get
    match st.textures.findIdx? p with
    | some textureId =>
      some { st with texture_indices := (nodeId, textureId) :: st.texture_indices }
    | none =>
      match st.oldTextures.findIdx? p with
      | some textureId =>
        match st.oldTextures[textureId]? with
        | some data =>
          some { st with
            oldTextures := st.oldTextures.eraseIdx textureId,
            textures := st.textures ++ [data],
            texture_indices := (nodeId, st.textures.length) :: st.texture_indices }
        | none => none
      | none =>
        let data := TextureData.load_scaled textureNode.path textureNode.scale.get
        some { st with
          textures := st.textures ++ [data],
          texture_indices := (nodeId, st.textures.length) :: st.texture_indices,
          loads := st.loads ++ [(textureNode.path, textureNode.scale.get)] }
  | some (.material materialNode) =>
    let textureId := materialNode.get_texture_node_id.bind
      (fun tid => st.texture_indices.lookup tid)
    let res := MaterialFlat.from_node materialNode textureId st.textures
    some { st with
      textures := res.2,
      materials := st.materials ++ [res.1],
      material_indices := (nodeId, st.materials.length) :: st.material_indices }
  | some (.primitive (.sphere sphereNode)) =>
    match sphereNode.material.get with
    | .internal materialNode =>
      let textureId := materialNode.get_texture_node_id.bind
        (fun tid => st.texture_indices.lookup tid)
      let res := MaterialFlat.from_node materialNode textureId st.textures
      some { st with
        textures := res.2,
        materials := st.materials ++ [res.1],
        spheres := st.spheres ++ [SphereFlat.from_node sphereNode st.materials.length] }
    | .external materialNodeId =>
      match st.material_indices.lookup materialNodeId with
      | none => none
      | some materialIdx =>
        some { st with spheres := st.spheres ++ [SphereFlat.from_node sphereNode materialIdx] }
  | some _ => some st

/-- The whole compile loop over the collected nodes in traversal order. -/
def compileNodes (snarl : Snarl) : List NodeId → CompileSt → Option CompileSt
  | [], st => some st
  | nodeId :: rest, st =>
    match compileStep snarl st nodeId with
    | none => none
    | some st1 => compileNodes snarl rest st1

/-! ## World state and recalculate -/

/-- The graph plus the subscription registries. The per-node `OnChange`
subscriber lists are modelled from the spec (§3, §4.4): the subscription
module file is absent from src/; per the spec each subscribable node owns a
registry keyed by event, with at most one active subscription per
(publisher, subscriber, event) pair, and the only event this code path uses
is `OnChange`. The stored callback (mark the Scene dirty, or unsubscribe a
stale subscriber) is not invoked during `recalculate`, so only the
subscriber sets are modelled. -/
structure World where
  snarl : Snarl
  subs : NodeId → List NodeId

/-- Replace the node stored at `id`. -/
def World.updateNode (w : World) (id : NodeId) (n : Node) : World :=
  { w with snarl := fun k => if k = id then some n else w.snarl k }

/-- Modelled from the spec: `has_subscription(subscriber, OnChange)`. -/
def World.hasSubscription (w : World) (publisher : NodeId) (subscriber : NodeId) : Bool :=
  subscriber ∈ w.subs publisher

/-- Modelled from the spec: `subscribe` — idempotent registration. -/
def World.subscribe (w : World) (publisher : NodeId) (subscriber : NodeId) : World :=
  if w.hasSubscription publisher subscriber then w
  else { w with
    subs := fun k => if k = publisher then w.subs publisher ++ [subscriber] else w.subs k }

/-- Modelled from the spec: `unsubscribe`. -/
def World.unsubscribe (w : World) (publisher : NodeId) (subscriber : NodeId) : World :=
  { w with
    subs := fun k => if k = publisher then (w.subs publisher).erase subscriber else w.subs k }

/-- `SceneNodeResponse` (src/node/scene.rs). -/
inductive SceneNodeResponse where
  | recalculated
  | nothing
deriving DecidableEq

/-- `SceneNode::handle_recalculate` (src/node/scene.rs lines 153-299):
1. fast path: dirty `NONE` returns `Nothing` untouched; otherwise take the
   old scene and tracked set out of the node (leaving defaults);
2. collect the contributing nodes (Primitive/Material/Texture/Collection)
   from the scene's data input;
3. subscribe every collected node lacking an `OnChange` subscription;
4. unsubscribe every old tracked node absent from the new set;
5. run the compile loop;
6. install the compiled scene (the source installs no tracked set: the
   `tracked_nodes` taken in step 1 are never written back) and clear the
   dirty flags to `NONE`, except that exactly `INIT` becomes `ALL`.
`fuel` bounds the unbounded collect recursion; `none` models divergence or a
panic inside the call. -/
def handle_recalculate (fuel : Nat) (w : World) (selfId : NodeId) :
    Option (SceneNodeResponse × World) :=
  match w.snarl selfId with
  | some (.scene node) =>
    if node.dirty ≠ SceneDirtyFlags.NONE then
      let oldScene := node.inner_scene
      let oldNodes := node.tracked_nodes
      let w1 := w.updateNode selfId
        (.scene { node with inner_scene := default, tracked_nodes := [] })
      match collect_for_node scenePred w1.snarl fuel node.data.get [] with
      | none => none
      | some nodes =>
        let w2 := nodes.foldl
          (fun acc nodeId =>
            if acc.hasSubscription nodeId selfId then acc else acc.subscribe nodeId selfId)
          w1
        let w3 := oldNodes.foldl
          (fun acc oldNodeId =>
            if oldNodeId ∈ nodes then acc else acc.unsubscribe oldNodeId selfId)
          w2
        match compileNodes w3.snarl nodes (CompileSt.init oldScene.textures) with
        | none => none
        | some st =>
          let newScene : SceneFlat := ⟨st.spheres, st.materials, st.textures⟩
          let dirty1 := if node.dirty = SceneDirtyFlags.INIT
            then SceneDirtyFlags.ALL else SceneDirtyFlags.NONE
          let w4 := w3.updateNode selfId
            (.scene { node with inner_scene := newScene, tracked_nodes := [], dirty := dirty1 })
          some (.recalculated, w4)
    else some (.nothing, w)
  | _ => none

/-! ## Render parameters, validation, progressive accumulation
(src/raytracer/mod.rs) -/

/-- `SamplingParams`. -/
structure SamplingParams where
  max_samples_per_pixel : Nat
  num_samples_per_pixel : Nat
  num_bounces : Nat
deriving DecidableEq

/-- `SamplingParams::default()`. -/
def SamplingParams.default : SamplingParams := ⟨256, 1, 8⟩

/-- `Camera` of src/raytracer/mod.rs. The `Angle` type of the vfov field is
absent from src/ (the full types module is not in the snapshot); modelled
from the spec as an exact angle measured in degrees, so that
`Angle::degrees(d)` is `d` and the range test `vfov ∈ [0°, 90°]` is the
rational comparison. -/
structure Camera where
  eye_pos : Vec3
  eye_dir : Vec3
  up : Vec3
  vfov : ℚ
  aperture : ℚ
  focus_distance : ℚ
deriving DecidableEq

/-- `SkyParams`. -/
structure SkyParams where
  azimuth : ℚ
  zenith : ℚ
  turbidity : ℚ
  albedo : Vec3
deriving DecidableEq

/-- `SkyParams::default()`. -/
def SkyParams.default : SkyParams := ⟨0, 85, 4, (1, 1, 1)⟩

/-- `RenderParams`. -/
structure RenderParams where
  camera : Camera
  sky : SkyParams
  sampling : SamplingParams
deriving DecidableEq

/-- `RenderParamsValidationError` (src/raytracer/mod.rs lines 355-369); the
`hw_skymodel` payload is opaque. -/
inductive RenderParamsValidationError where
  | maxSampleCountNotMultiple (maxSamples : Nat) (numSamples : Nat)
  | viewportSize (w : Nat) (h : Nat)
  | vfovOutOfRange (degrees : ℚ)
  | apertureOutOfRange (aperture : ℚ)
  | focusDistanceOutOfRange (focusDistance : ℚ)
  | hwSkyModel
deriving DecidableEq

/-- `RenderParams::validate` (src/raytracer/mod.rs lines 471-498). The first
check computes `max_samples_per_pixel % num_samples_per_pixel` on `u32`
values: when `num_samples_per_pixel` is zero the Rust remainder operator
panics, modelled as `none`. -/
def RenderParams.validate (p : RenderParams) : Option (Except RenderParamsValidationError Unit) :=
  if p.sampling.num_samples_per_pixel = 0 then none
  else some (
    if p.sampling.max_samples_per_pixel % p.sampling.num_samples_per_pixel ≠ 0 then
      .error (.maxSampleCountNotMultiple p.sampling.max_samples_per_pixel
        p.sampling.num_samples_per_pixel)
    else if ¬ (0 ≤ p.camera.vfov ∧ p.camera.vfov ≤ 90) then
      .error (.vfovOutOfRange p.camera.vfov)
    else if ¬ (0 ≤ p.camera.aperture ∧ p.camera.aperture ≤ 1) then
      .error (.apertureOutOfRange p.camera.aperture)
    else if p.camera.focus_distance < 0 then
      .error (.focusDistanceOutOfRange p.camera.focus_distance)
    else .ok ())

/-- `GpuSamplingParams`. -/
structure GpuSamplingParams where
  num_samples_per_pixel : Nat
  num_bounces : Nat
  accumulated_samples_per_pixel : Nat
  clear_accumulated_samples : Nat
deriving DecidableEq

/-- `RenderProgress::next_frame` (src/raytracer/mod.rs lines 607-644) as a
function of the accumulated sample count; returns the GPU sampling
parameters and the new accumulated count. -/
def next_frame (accumulated : Nat) (samplingParams : SamplingParams) :
    GpuSamplingParams × Nat :=
  let next := samplingParams.num_samples_per_pixel + accumulated
  if accumulated = 0 then
    (⟨samplingParams.num_samples_per_pixel, samplingParams.num_bounces, next, 1⟩, next)
  else if next ≤ samplingParams.max_samples_per_pixel then
    (⟨samplingParams.num_samples_per_pixel, samplingParams.num_bounces, next, 0⟩, next)
  else
    (⟨0, samplingParams.num_bounces, accumulated, 0⟩, accumulated)

/-- The accumulated sample count after `n` `next_frame` calls that started
from a reset accumulator (`RenderProgress::new`, accumulated 0). -/
def accAfter (samplingParams : SamplingParams) : Nat → Nat
  | 0 => 0
  | n + 1 => (next_frame (accAfter samplingParams n) samplingParams).2

/-- The `GpuSamplingParams` produced by the `n`-th `next_frame` call
(counting from 0) after a reset. -/
def gpuAt (samplingParams : SamplingParams) (n : Nat) : GpuSamplingParams :=
  (next_frame (accAfter samplingParams n) samplingParams).1

/-- `Raytracer::set_render_params` (src/raytracer/mod.rs lines 314-347),
abstracting the GPU queue writes. `skyOk` is the external
`hw_skymodel::SkyState::new` admissibility test (black-box sky model; `false`
maps to the wrapped sky error). On success returns the new
`latest_render_params` together with a flag telling whether
`render_progress.reset()` ran; `none` models a panic inside `validate`. -/
def set_render_params (skyOk : SkyParams → Bool) (latest : RenderParams)
    (renderParams : RenderParams) (viewportW viewportH : Nat) :
    Option (Except RenderParamsValidationError (RenderParams × Bool)) :=
  if renderParams = latest then some (.ok (latest, false))
  else
    match renderParams.validate with
    | none => none
    | some (.error e) => some (.error e)
    | some (.ok _) =>
      if viewportW = 0 ∨ viewportH = 0 then
        some (.error (.viewportSize viewportW viewportH))
      else if skyOk renderParams.sky then some (.ok (renderParams, true))
      else some (.error .hwSkyModel)

/-- The host-side state of `Raytracer` that the per-frame path touches. -/
structure RaytracerState where
  latest_render_params : RenderParams
  accumulated : Nat
  frame_number : Nat
deriving DecidableEq

/-- `Raytracer::prepare_frame` (src/raytracer/mod.rs lines 283-300): calls
`set_render_params` and `expect`s the result — a validation failure (or the
zero-divisor panic inside `validate`) is a panic, modelled as `none`; then
advances the accumulator with the freshly stored sampling parameters and
bumps the frame number. -/
def prepare_frame (skyOk : SkyParams → Bool) (st : RaytracerState)
    (renderParams : RenderParams) (viewportW viewportH : Nat) :
    Option (RaytracerState × GpuSamplingParams) :=
  match set_render_params skyOk st.latest_render_params renderParams viewportW viewportH with
  | none => none
  | some (.error _) => none
  | some (.ok (latest1, didReset)) =>
    let acc0 := if didReset then 0 else st.accumulated
    let res := next_frame acc0 latest1.sampling
    some (⟨latest1, res.2, st.frame_number + 1⟩, res.1)


/-! ## Concrete fixtures used by witnesses and counterexamples -/

def vzero : Vec3 := (0, 0, 0)

def CAM0 : Camera := ⟨vzero, (0, 0, 1), (0, 1, 0), 45, 0, 1⟩

/-- A valid stored parameter set. -/
def LAT0 : RenderParams := ⟨CAM0, SkyParams.default, SamplingParams.default⟩

/-- Sky model that accepts every input. -/
def skyTrue : SkyParams → Bool := fun _ => true

def P0 : RenderParams := ⟨CAM0, SkyParams.default, ⟨0, 0, 8⟩⟩

def P1 : RenderParams := { LAT0 with camera := { CAM0 with aperture := 1 } }

def RPZeroSamples : RenderParams := ⟨CAM0, SkyParams.default, ⟨256, 0, 8⟩⟩

def RPBadVfov : RenderParams := ⟨{ CAM0 with vfov := 95 }, SkyParams.default, SamplingParams.default⟩

def ST0 : RaytracerState := ⟨LAT0, 0, 1⟩

/-- Claim C8: on every typed pin, `set v` makes `get` return `v`, a
following `reset` restores `get` to the stored initial (not a default or
zeroed value) even after repeated overrides, and at every point `get`
returns the override when present and the initial otherwise. -/
theorem pin_override_and_restore (α : Type) (p : NodePin α) (v w : α) :
    (p.set v).get = v ∧ ((p.set v).reset).get = p.initial ∧
    (((p.set v).set w).reset).get = p.initial ∧
    (∀ q : NodePin α, q.get = match q.value with | some o => o | none => q.initial) := by
  refine ⟨rfl, rfl, rfl, fun q => ?_⟩
  cases h : q.value <;> simp [NodePin.get, h]

/-- Claim C2: from a reset accumulator with max 256 and 64 samples per
frame, the four first `next_frame` calls yield clear flags 1,0,0,0 and
accumulated counts 64,128,192,256, and every further call emits zero
samples with clear flag 0, leaving the count at 256. -/
theorem accumulator_sequence (b : Nat) :
    gpuAt ⟨256, 64, b⟩ 0 = ⟨64, b, 64, 1⟩ ∧ accAfter ⟨256, 64, b⟩ 1 = 64 ∧
    gpuAt ⟨256, 64, b⟩ 1 = ⟨64, b, 128, 0⟩ ∧ accAfter ⟨256, 64, b⟩ 2 = 128 ∧
    gpuAt ⟨256, 64, b⟩ 2 = ⟨64, b, 192, 0⟩ ∧ accAfter ⟨256, 64, b⟩ 3 = 192 ∧
    gpuAt ⟨256, 64, b⟩ 3 = ⟨64, b, 256, 0⟩ ∧ accAfter ⟨256, 64, b⟩ 4 = 256 ∧
    (∀ n, 4 ≤ n → gpuAt ⟨256, 64, b⟩ n = ⟨0, b, 256, 0⟩ ∧ accAfter ⟨256, 64, b⟩ n = 256) := by
  have hstep : ∀ n, 4 ≤ n → accAfter ⟨256, 64, b⟩ n = 256 := by
    intro n hn
    induction n with
    | zero => omega
    | succ m ih =>
      rcases Nat.lt_or_ge m 4 with hm | hm
      · have h3 : m = 3 := by omega
        subst h3
        rfl
      · have h256 := ih hm
        show (next_frame (accAfter ⟨256, 64, b⟩ m) ⟨256, 64, b⟩).2 = 256
        rw [h256]
        rfl
  refine ⟨rfl, rfl, rfl, rfl, rfl, rfl, rfl, rfl, fun n hn => ?_⟩
  have h := hstep n hn
  refine ⟨?_, h⟩
  show (next_frame (accAfter ⟨256, 64, b⟩ n) ⟨256, 64, b⟩).1 = _
  rw [h]
  rfl

/-- Witness for C2: the fifth call (index 5 after the reset), with 8
bounces, emits zero samples and leaves the accumulated count at 256. -/
theorem accumulator_sequence_witness :
    gpuAt ⟨256, 64, 8⟩ 5 = ⟨0, 8, 256, 0⟩ ∧ accAfter ⟨256, 64, 8⟩ 5 = 256 :=
  (accumulator_sequence 8).2.2.2.2.2.2.2.2 5 (by decide)

/-- Claim C5 counterexample: the claimed equivalence "validate returns Ok
exactly when the four range/multiple conditions hold" fails for the
parameter set with `num_samples_per_pixel = 0`: all four conditions hold
(`0 % 0 = 0`), yet `validate` does not return Ok — it panics on the `%`. -/
theorem validate_claim_counterexample :
    ¬ (∀ p : RenderParams,
        p.validate = some (.ok ()) ↔
          (p.sampling.max_samples_per_pixel % p.sampling.num_samples_per_pixel = 0 ∧
           0 ≤ p.camera.vfov ∧ p.camera.vfov ≤ 90 ∧
           0 ≤ p.camera.aperture ∧ p.camera.aperture ≤ 1 ∧
           0 ≤ p.camera.focus_distance)) := by
  intro h
  have h0 := (h P0).mpr (by decide)
  have h1 : (none : Option (Except RenderParamsValidationError Unit)) = some (.ok ()) := h0
  exact Option.noConfusion h1

/-- Claim C5 (amended): for every parameter set whose per-frame sample count
is nonzero, `validate` returns Ok exactly when the sample budget is a
multiple of the per-frame count, vfov lies in [0°, 90°], aperture lies in
[0, 1] and the focus distance is at least 0; `SamplingParams{max=100,num=3}`
fails with the sample-count-not-multiple error and vfov = 95° fails with the
vfov-out-of-range error. -/
theorem validate_spec :
    (∀ p : RenderParams, p.sampling.num_samples_per_pixel ≠ 0 →
      (p.validate = some (.ok ()) ↔
        (p.sampling.max_samples_per_pixel % p.sampling.num_samples_per_pixel = 0 ∧
         0 ≤ p.camera.vfov ∧ p.camera.vfov ≤ 90 ∧
         0 ≤ p.camera.aperture ∧ p.camera.aperture ≤ 1 ∧
         0 ≤ p.camera.focus_distance))) ∧
    (∀ (c : Camera) (s : SkyParams) (b : Nat),
      RenderParams.validate ⟨c, s, ⟨100, 3, b⟩⟩ =
        some (.error (.maxSampleCountNotMultiple 100 3))) ∧
    (∀ (e d u : Vec3) (s : SkyParams),
      RenderParams.validate ⟨⟨e, d, u, 95, 0, 1⟩, s, SamplingParams.default⟩ =
        some (.error (.vfovOutOfRange 95))) := by
  refine ⟨fun p hnum => ?_, fun c s b => ?_, fun e d u s => ?_⟩
  · simp only [RenderParams.validate, if_neg hnum, Option.some_inj]
    constructor
    · intro h
      have hmul : p.sampling.max_samples_per_pixel % p.sampling.num_samples_per_pixel = 0 := by
        by_contra hc
        rw [if_pos hc] at h
        exact Except.noConfusion h
      rw [if_neg (not_not_intro hmul)] at h
      have hvf : 0 ≤ p.camera.vfov ∧ p.camera.vfov ≤ 90 := by
        by_contra hc
        rw [if_pos hc] at h
        exact Except.noConfusion h
      rw [if_neg (not_not_intro hvf)] at h
      have hap : 0 ≤ p.camera.aperture ∧ p.camera.aperture ≤ 1 := by
        by_contra hc
        rw [if_pos hc] at h
        exact Except.noConfusion h
      rw [if_neg (not_not_intro hap)] at h
      have hfd : ¬ (p.camera.focus_distance < 0) := by
        intro hc
        rw [if_pos hc] at h
        exact Except.noConfusion h
      exact ⟨hmul, hvf.1, hvf.2, hap.1, hap.2, not_lt.mp hfd⟩
    · rintro ⟨hmul, hv0, hv90, ha0, ha1, hf⟩
      rw [if_neg (not_not_intro hmul), if_neg (not_not_intro ⟨hv0, hv90⟩),
        if_neg (not_not_intro ⟨ha0, ha1⟩), if_neg (not_lt.mpr hf)]
  · simp [RenderParams.validate]
  · simp only [RenderParams.validate, SamplingParams.default]
    norm_num

/-- Witness for C5: the theorem applied to the concrete valid default
parameter set evaluates validate to Ok. -/
theorem validate_spec_witness : RenderParams.validate LAT0 = some (.ok ()) :=
  (validate_spec.1 LAT0 (by decide)).mpr (by decide)

/-- Claim C6 counterexample: with a zero viewport and incoming parameters
equal to the stored ones, `set_render_params` returns Ok (the equality fast
path precedes the viewport check), not the viewport-size error. -/
theorem set_render_params_zero_viewport_counterexample :
    ¬ (∀ (latest p : RenderParams) (vw vh : Nat), (vw = 0 ∨ vh = 0) →
        set_render_params skyTrue latest p vw vh = some (.error (.viewportSize vw vh))) := by
  intro h
  exact absurd (h LAT0 LAT0 0 0 (Or.inl rfl)) (by decide)

/-- Claim C6 (amended): for every incoming parameter set that differs from
the stored one and passes `validate`, a viewport with zero width or height
makes `set_render_params` fail with the viewport-size validation error
(rejecting the frame before any buffer write). -/
theorem set_render_params_zero_viewport (skyOk : SkyParams → Bool)
    (latest p : RenderParams) (vw vh : Nat) (hne : p ≠ latest)
    (hval : p.validate = some (.ok ())) (hz : vw = 0 ∨ vh = 0) :
    set_render_params skyOk latest p vw vh = some (.error (.viewportSize vw vh)) := by
  simp only [set_render_params, if_neg hne, hval, if_pos hz]

/-- Witness for C6: concrete parameters differing in aperture, viewport
width 0. -/
theorem set_render_params_zero_viewport_witness :
    set_render_params skyTrue LAT0 P1 0 7 = some (.error (.viewportSize 0 7)) :=
  set_render_params_zero_viewport skyTrue LAT0 P1 0 7 (by decide) (by decide) (Or.inl rfl)

/-- Claim C7 (code bug): the validator panics (divide by zero in the
multiple-of check) when `num_samples_per_pixel` is 0, and `prepare_frame`
panics (the `expect` on `set_render_params`) when given parameters that fail
validation — neither path returns a typed result there. -/
theorem validator_panics : RenderParams.validate RPZeroSamples = none ∧
    prepare_frame skyTrue ST0 RPBadVfov 100 100 = none :=
  ⟨rfl, rfl⟩


/-- A sphere node carrying an inline (internal) Lambertian material. -/
def sphereInline : SphereNode :=
  ⟨NodePin.new vzero, NodePin.new 1,
    NodePin.new (.internal (.lambertian ⟨NodePin.new ⟨220, 220, 220, 255⟩, NodePin.new none⟩))⟩

/-- A two-node world: Scene node 0 (with the given dirty flags) wired to
sphere node 1. -/
def sceneW (dirty : Nat) : World :=
  ⟨fun id =>
    if id = 0 then some (.scene ⟨NodePin.new (some 1), default, [], dirty⟩)
    else if id = 1 then some (.primitive (.sphere sphereInline))
    else none,
   fun _ => []⟩

/-- The outcome of recalculating the two-node world. -/
def recalcResult (dirty : Nat) : SceneNodeResponse × World :=
  (handle_recalculate 2 (sceneW dirty) 0).getD (.nothing, ⟨fun _ => none, fun _ => []⟩)

/-- Claim C1: with dirty flags `NONE`, recalculate returns `Nothing` and the
world (stored scene and flags included) is untouched; with any other flags a
completed call returns `Recalculated`, after which the flags are `NONE` —
except that flags equal to the `INIT` composite are left at `ALL` (forcing
one more compile). -/
theorem recalculate_flags (fuel : Nat) (w : World) (selfId : NodeId) (node : SceneNode)
    (hn : w.snarl selfId = some (.scene node)) :
    (node.dirty = SceneDirtyFlags.NONE → handle_recalculate fuel w selfId = some (.nothing, w)) ∧
    (node.dirty ≠ SceneDirtyFlags.NONE → ∀ resp w1,
      handle_recalculate fuel w selfId = some (resp, w1) →
      resp = .recalculated ∧ ∃ node1 : SceneNode,
        w1.snarl selfId = some (.scene node1) ∧
        node1.dirty = if node.dirty = SceneDirtyFlags.INIT
          then SceneDirtyFlags.ALL else SceneDirtyFlags.NONE) := by
  constructor
  · intro h0
    simp only [handle_recalculate, hn]
    rw [if_neg (by simp [h0])]
  · intro hne resp w1 heq
    simp only [handle_recalculate, hn] at heq
    rw [if_pos hne] at heq
    split at heq
    · exact Option.noConfusion heq
    · rename_i nodes hcol
      split at heq
      · exact Option.noConfusion heq
      · rename_i st1 hcmp
        rw [Option.some_inj, Prod.mk.injEq] at heq
        obtain ⟨hresp, hw1⟩ := heq
        refine ⟨hresp.symm, ⟨{ node with
          inner_scene := ⟨st1.spheres, st1.materials, st1.textures⟩,
          tracked_nodes := [],
          dirty := if node.dirty = SceneDirtyFlags.INIT
            then SceneDirtyFlags.ALL else SceneDirtyFlags.NONE }, ?_, rfl⟩⟩
        rw [← hw1]
        simp [World.updateNode]

/-- Witness for C1: the theorem applied to the two-node world at dirty
`NONE`, `ALL` and `INIT`. -/
theorem recalculate_flags_witness :
    handle_recalculate 2 (sceneW SceneDirtyFlags.NONE) 0 =
      some (.nothing, sceneW SceneDirtyFlags.NONE) ∧
    ((recalcResult SceneDirtyFlags.ALL).1 = .recalculated ∧ ∃ node1,
      (recalcResult SceneDirtyFlags.ALL).2.snarl 0 = some (.scene node1) ∧
      node1.dirty = SceneDirtyFlags.NONE) ∧
    ((recalcResult SceneDirtyFlags.INIT).1 = .recalculated ∧ ∃ node1,
      (recalcResult SceneDirtyFlags.INIT).2.snarl 0 = some (.scene node1) ∧
      node1.dirty = SceneDirtyFlags.ALL) := by
  refine ⟨(recalculate_flags 2 (sceneW SceneDirtyFlags.NONE) 0 _ rfl).1 rfl, ?_, ?_⟩
  · have h := (recalculate_flags 2 (sceneW SceneDirtyFlags.ALL) 0 _ rfl).2 (by decide)
      (recalcResult SceneDirtyFlags.ALL).1 (recalcResult SceneDirtyFlags.ALL).2 (by rfl)
    simpa using h
  · have h := (recalculate_flags 2 (sceneW SceneDirtyFlags.INIT) 0 _ rfl).2 (by decide)
      (recalcResult SceneDirtyFlags.INIT).1 (recalcResult SceneDirtyFlags.INIT).2 (by rfl)
    simpa using h

/-- Projection of a node's stored tracked set. -/
def trackedOf : Node → Option (List NodeId)
  | .scene s => some s.tracked_nodes
  | _ => none

/-- Claim C3 (code bug): on the two-node world the dependency set collected
during the recalculate call is `[1]`, the call completes with
`Recalculated`, yet the Scene node's stored tracked set afterwards is `[]`:
the source takes `tracked_nodes` out at the start of `handle_recalculate`
and never installs the new set, so the stale-dependency unsubscribe loop of
every later recompile sees an empty old set. -/
theorem recalculate_drops_tracked_nodes :
    collect_for_node scenePred (sceneW SceneDirtyFlags.ALL).snarl 2 (some 1) [] = some [1] ∧
    (handle_recalculate 2 (sceneW SceneDirtyFlags.ALL) 0).map Prod.fst =
      some SceneNodeResponse.recalculated ∧
    ((handle_recalculate 2 (sceneW SceneDirtyFlags.ALL) 0).bind
      fun p => (p.2.snarl 0).bind trackedOf) = some [] := by
  exact ⟨rfl, rfl, rfl⟩

/-- Claim C4: processing a Texture node in the compile loop: if a
texture with the same dedup key (path, scale) is already in the new texture
list, its index is reused (new list, old list and the load trace are
unchanged); otherwise, if one exists in the previous scene's texture list,
that entry is moved into the new list (removed from the old, appended to the
new) without any `load_scaled` call (load trace unchanged); only when
neither holds is `load_scaled` invoked (recorded in the trace) and its
result appended. -/
theorem texture_dedup (snarl : Snarl) (st : CompileSt) (nodeId : NodeId) (tn : TextureNode)
    (hn : snarl nodeId = some (.texture tn)) :
    (∀ i, st.textures.findIdx? (texEq tn.path tn.scale.get) = some i →
      compileStep snarl st nodeId =
        some { st with texture_indices := (nodeId, i) :: st.texture_indices }) ∧
    (st.textures.findIdx? (texEq tn.path tn.scale.get) = none →
      ∀ j d, st.oldTextures.findIdx? (texEq tn.path tn.scale.get) = some j →
        st.oldTextures[j]? = some d →
        compileStep snarl st nodeId =
          some { st with
            oldTextures := st.oldTextures.eraseIdx j,
            textures := st.textures ++ [d],
            texture_indices := (nodeId, st.textures.length) :: st.texture_indices }) ∧
    (st.textures.findIdx? (texEq tn.path tn.scale.get) = none →
      st.oldTextures.findIdx? (texEq tn.path tn.scale.get) = none →
      compileStep snarl st nodeId =
        some { st with
          textures := st.textures ++ [TextureData.load_scaled tn.path tn.scale.get],
          texture_indices := (nodeId, st.textures.length) :: st.texture_indices,
          loads := st.loads ++ [(tn.path, tn.scale.get)] }) := by
  refine ⟨fun i hi => ?_, fun hnew j d hj hd => ?_, fun hnew hold => ?_⟩
  · simp only [compileStep, hn, hi]
  · simp only [compileStep, hn, hnew, hj, hd]
  · simp only [compileStep, hn, hnew, hold]

/-- The texture node used by the C4 witness. -/
def tnW : TextureNode := ⟨"moon.jpeg", NodePin.new 2⟩

/-- One-node snarl holding the witness texture node at id 5. -/
def snarlTex : Snarl := fun id => if id = 5 then some (.texture tnW) else none

/-- Witness for C4: recompiling against an old scene that already holds the
decoded texture for (moon.jpeg, scale 2) moves the old entry forward —
the load trace stays empty. -/
theorem texture_dedup_witness :
    compileStep snarlTex (CompileSt.init [TextureData.load_scaled "moon.jpeg" 2]) 5 =
      some { CompileSt.init [TextureData.load_scaled "moon.jpeg" 2] with
        oldTextures := [],
        textures := [TextureData.load_scaled "moon.jpeg" 2],
        texture_indices := [(5, 0)] } :=
  (texture_dedup snarlTex (CompileSt.init [TextureData.load_scaled "moon.jpeg" 2]) 5 tnW
    rfl).2.1 (by decide) 0 (TextureData.load_scaled "moon.jpeg" 2) (by decide) (by decide)


/-! ## Dependency-collector analysis (claims C9 and C10) -/

/-- A one-node graph whose Collection contains itself: the degenerate
self-referential cycle of the spec's open question. -/
def snarlLoop : Snarl := fun id => if id = 0 then some (.collection ⟨[0]⟩) else none

/-- On the self-referential Collection the traversal exhausts every fuel
bound: the source recursion (which has no visited set) never returns. -/
lemma collect_loop_none : ∀ fuel dest,
    collect_for_node scenePred snarlLoop fuel (some 0) dest = none := by
  intro fuel
  induction fuel with
  | zero => intro dest; rfl
  | succ f ih =>
    intro dest
    simp [collect_for_node, snarlLoop, childIds, collectChildren, ih]

/-- Claim C9 counterexample: rooted at the self-referential Collection, no
recursion depth lets `collect_for_node` finish — the traversal does not
terminate on this graph. -/
theorem collect_terminates_counterexample :
    ¬ ∃ fuel L, collect_for_node scenePred snarlLoop fuel (some 0) [] = some L := by
  rintro ⟨fuel, L, h⟩
  rw [collect_loop_none fuel []] at h
  exact Option.noConfusion h

/-- Claim C9 (amended): the traversal terminates on every graph that admits
a rank function strictly decreasing along input edges (equivalently, whose
input-edge graph is acyclic) and whose edges stay inside the arena: fuel
exceeding the root's rank suffices. -/
theorem collect_terminates (pred : Node → Bool) (snarl : Snarl) (rank : NodeId → Nat)
    (hrank : ∀ id nd c, snarl id = some nd → c ∈ childIds nd → rank c < rank id)
    (hclosed : ∀ id nd c, snarl id = some nd → c ∈ childIds nd → (snarl c).isSome) :
    ∀ fuel id dest, (snarl id).isSome → rank id < fuel →
      (collect_for_node pred snarl fuel (some id) dest).isSome := by
  intro fuel
  induction fuel using Nat.strong_induction_on with
  | _ fuel ih =>
    intro id dest hsome hlt
    cases fuel with
    | zero => exact absurd hlt (Nat.not_lt_zero _)
    | succ f =>
      obtain ⟨nd, hnd⟩ := Option.isSome_iff_exists.mp hsome
      have hch : ∀ ids dest0, (∀ c ∈ ids, c ∈ childIds nd) →
          (collectChildren (collect_for_node pred snarl f) ids dest0).isSome := by
        intro ids
        induction ids with
        | nil => intro dest0 _; rfl
        | cons c rest ihc =>
          intro dest0 hsub
          have hc : c ∈ childIds nd := hsub c (List.mem_cons_self c rest)
          have hcs : (snarl c).isSome := hclosed id nd c hnd hc
          have hcr : rank c < rank id := hrank id nd c hnd hc
          have h1 : (collect_for_node pred snarl f (some c) dest0).isSome :=
            ih f (Nat.lt_succ_self f) c dest0 hcs (by omega)
          obtain ⟨d1, hd1⟩ := Option.isSome_iff_exists.mp h1
          have h2 := ihc d1 (fun x hx => hsub x (List.mem_cons_of_mem c hx))
          simp only [collectChildren, hd1]
          exact h2
      obtain ⟨d, hd⟩ :=
        Option.isSome_iff_exists.mp (hch (childIds nd) dest (fun c h => h))
      simp only [collect_for_node, hnd, hd]
      split <;> rfl

/-- A sphere node whose material input is wired from an external node. -/
def sphereExt : SphereNode :=
  ⟨NodePin.new vzero, NodePin.new 1, NodePin.new (.external 1)⟩

/-- A Lambertian material node without texture input. -/
def matLamb : MaterialNode :=
  .lambertian ⟨NodePin.new ⟨220, 220, 220, 255⟩, NodePin.new none⟩

/-- Sphere node 0 referencing material node 1 (an acyclic graph). -/
def snarlExt : Snarl := fun id =>
  if id = 0 then some (.primitive (.sphere sphereExt))
  else if id = 1 then some (.material matLamb)
  else none

/-- Witness for C9: on the acyclic sphere-to-material graph, ranked by
distance from the material, fuel 2 completes the traversal. -/
theorem collect_terminates_witness :
    (collect_for_node scenePred snarlExt 2 (some 0) []).isSome := by
  refine collect_terminates scenePred snarlExt (fun id => if id = 0 then 1 else 0)
    ?_ ?_ 2 0 [] (by rfl) (by decide)
  · intro id nd c hnd hc
    rcases id with _ | _ | id
    · have h' : some (Node.primitive (.sphere sphereExt)) = some nd := hnd
      injection h' with h'
      subst h'
      have hc1 : c ∈ [1] := hc
      rw [List.mem_singleton] at hc1
      subst hc1
      decide
    · have h' : some (Node.material matLamb) = some nd := hnd
      injection h' with h'
      subst h'
      have hc1 : c ∈ ([] : List NodeId) := hc
      exact absurd hc1 (List.not_mem_nil c)
    · have h' : (none : Option Node) = some nd := hnd
      exact Option.noConfusion h'
  · intro id nd c hnd hc
    rcases id with _ | _ | id
    · have h' : some (Node.primitive (.sphere sphereExt)) = some nd := hnd
      injection h' with h'
      subst h'
      have hc1 : c ∈ [1] := hc
      rw [List.mem_singleton] at hc1
      subst hc1
      rfl
    · have h' : some (Node.material matLamb) = some nd := hnd
      injection h' with h'
      subst h'
      have hc1 : c ∈ ([] : List NodeId) := hc
      exact absurd hc1 (List.not_mem_nil c)
    · have h' : (none : Option Node) = some nd := hnd
      exact Option.noConfusion h'


/-! ## C10: traversal order (children before parents) and material-index
resolution -/

/-- `x` can be reached from `a` by following one or more input edges of the
graph (the edges `collect_for_node` recurses through). -/
inductive Reaches (snarl : Snarl) : NodeId → NodeId → Prop
  | base {a : NodeId} {nd : Node} {b : NodeId}
      (h : snarl a = some nd) (hb : b ∈ childIds nd) : Reaches snarl a b
  | step {a : NodeId} {nd : Node} {b c : NodeId}
      (h : snarl a = some nd) (hb : b ∈ childIds nd) (hr : Reaches snarl b c) :
      Reaches snarl a c

/-- Whether the node stored at `c` satisfies the collection predicate (such
nodes are the ones `collect_for_node` inserts). -/
def collectedB (pred : Node → Bool) (snarl : Snarl) (c : NodeId) : Bool :=
  match snarl c with
  | some nd => pred nd
  | none => false

/-- `c` occurs strictly before (an occurrence of) `n` in `L`. -/
def Before (L : List NodeId) (c n : NodeId) : Prop :=
  ∃ l1 l2, L = l1 ++ n :: l2 ∧ c ∈ l1

/-- The children-before-parents property of a collect result: every
collected node reachable from a member through input edges occurs earlier
in the list. -/
def GoodList (pred : Node → Bool) (snarl : Snarl) (L : List NodeId) : Prop :=
  ∀ n ∈ L, ∀ x, Reaches snarl n x → collectedB pred snarl x = true → Before L x n

lemma before_append {L : List NodeId} (l' : List NodeId) {c n : NodeId}
    (h : Before L c n) : Before (L ++ l') c n := by
  obtain ⟨l1, l2, rfl, hc⟩ := h
  exact ⟨l1, l2 ++ l', by simp, hc⟩

lemma insertSet_exists_suffix (L : List NodeId) (id : NodeId) :
    ∃ t, insertSet L id = L ++ t := by
  unfold insertSet
  split_ifs
  · exact ⟨[], by simp⟩
  · exact ⟨[id], rfl⟩

lemma before_insertSet {L : List NodeId} {c n : NodeId} (id : NodeId)
    (h : Before L c n) : Before (insertSet L id) c n := by
  obtain ⟨t, ht⟩ := insertSet_exists_suffix L id
  rw [ht]
  exact before_append t h

lemma mem_insertSet {L : List NodeId} {x id : NodeId} :
    x ∈ insertSet L id ↔ x ∈ L ∨ x = id := by
  unfold insertSet
  split_ifs with h
  · constructor
    · exact Or.inl
    · rintro (hx | rfl)
      · exact hx
      · exact h
  · simp

lemma nodup_insertSet (L : List NodeId) (id : NodeId) (h : L.Nodup) :
    (insertSet L id).Nodup := by
  unfold insertSet
  split_ifs with hid
  · exact h
  · refine List.nodup_append.mpr ⟨h, List.nodup_singleton id, ?_⟩
    intro a ha hb
    rw [List.mem_singleton] at hb
    exact hid (hb ▸ ha)

lemma goodList_insertSet (pred : Node → Bool) (snarl : Snarl) {L : List NodeId}
    {id : NodeId} (hG : GoodList pred snarl L)
    (hreach : ∀ x, Reaches snarl id x → collectedB pred snarl x = true → x ∈ L) :
    GoodList pred snarl (insertSet L id) := by
  intro n hn x hx hcol
  rw [mem_insertSet] at hn
  rcases hn with hn | rfl
  · exact before_insertSet id (hG n hn x hx hcol)
  · by_cases hid : n ∈ L
    · have hins : insertSet L n = L := if_pos hid
      rw [hins]
      exact hG n hid x hx hcol
    · have hins : insertSet L n = L ++ [n] := if_neg hid
      rw [hins]
      exact ⟨L, [], rfl, hreach x hx hcol⟩

/-- The invariant carried through the sequential child traversal, as a
function of the invariant of the single-node traversal it invokes. -/
lemma collectChildren_inv (pred : Node → Bool) (snarl : Snarl)
    (f : Option NodeId → List NodeId → Option (List NodeId))
    (hf : ∀ oid d d', f oid d = some d' →
      (∃ s, d' = d ++ s) ∧
      (d.Nodup → d'.Nodup) ∧
      (∀ x ∈ d', x ∈ d ∨ collectedB pred snarl x = true) ∧
      (GoodList pred snarl d → GoodList pred snarl d') ∧
      (∀ i, oid = some i →
        (collectedB pred snarl i = true → i ∈ d') ∧
        (∀ x, Reaches snarl i x → collectedB pred snarl x = true → x ∈ d'))) :
    ∀ ids d d', collectChildren f ids d = some d' →
      (∃ s, d' = d ++ s) ∧
      (d.Nodup → d'.Nodup) ∧
      (∀ x ∈ d', x ∈ d ∨ collectedB pred snarl x = true) ∧
      (GoodList pred snarl d → GoodList pred snarl d') ∧
      (∀ c ∈ ids,
        (collectedB pred snarl c = true → c ∈ d') ∧
        (∀ x, Reaches snarl c x → collectedB pred snarl x = true → x ∈ d')) := by
  intro ids
  induction ids with
  | nil =>
    intro d d' h
    have h' : some d = some d' := h
    rw [Option.some_inj] at h'
    subst h'
    exact ⟨⟨[], by simp⟩, id, fun x hx => Or.inl hx, id,
      fun c hc => absurd hc (List.not_mem_nil c)⟩
  | cons c rest ihc =>
    intro d d' h
    cases hfc : f (some c) d with
    | none =>
      have h2 : (match f (some c) d with
        | none => none
        | some d1 => collectChildren f rest d1) = some d' := h
      rw [hfc] at h2
      exact Option.noConfusion h2
    | some d1 =>
      have h' : collectChildren f rest d1 = some d' := by
        have h2 : (match f (some c) d with
          | none => none
          | some d1 => collectChildren f rest d1) = some d' := h
        rw [hfc] at h2
        exact h2
      obtain ⟨⟨s1, hs1⟩, hnodup1, hmem1, hgood1, hself1⟩ := hf _ _ _ hfc
      obtain ⟨⟨s2, hs2⟩, hnodup2, hmem2, hgood2, hrest⟩ := ihc d1 d' h'
      refine ⟨⟨s1 ++ s2, by rw [hs2, hs1, List.append_assoc]⟩,
        fun h0 => hnodup2 (hnodup1 h0), ?_, fun hg => hgood2 (hgood1 hg), ?_⟩
      · intro x hx
        rcases hmem2 x hx with hx1 | hcol
        · exact hmem1 x hx1
        · exact Or.inr hcol
      · intro x hxmem
        have hmono : ∀ y, y ∈ d1 → y ∈ d' := by
          intro y hy
          rw [hs2]
          exact List.mem_append_left _ hy
        rcases List.mem_cons.mp hxmem with rfl | hxr
        · obtain ⟨ha, hb⟩ := hself1 x rfl
          exact ⟨fun hcol => hmono _ (ha hcol), fun y hy hcol => hmono _ (hb y hy hcol)⟩
        · exact hrest x hxr

/-- The main invariant of `collect_for_node`: a completed traversal extends
the destination set, preserves distinctness, only adds predicate-matching
nodes, preserves the children-before-parents property, and guarantees that
the visited node (and every collected node reachable from it) gets
inserted. -/
lemma collect_inv (pred : Node → Bool) (snarl : Snarl) :
    ∀ fuel oid dest dest', collect_for_node pred snarl fuel oid dest = some dest' →
      (∃ s, dest' = dest ++ s) ∧
      (dest.Nodup → dest'.Nodup) ∧
      (∀ x ∈ dest', x ∈ dest ∨ collectedB pred snarl x = true) ∧
      (GoodList pred snarl dest → GoodList pred snarl dest') ∧
      (∀ i, oid = some i →
        (collectedB pred snarl i = true → i ∈ dest') ∧
        (∀ x, Reaches snarl i x → collectedB pred snarl x = true → x ∈ dest')) := by
  intro fuel
  induction fuel with
  | zero =>
    intro oid dest dest' h
    cases oid with
    | none =>
      have h' : some dest = some dest' := h
      rw [Option.some_inj] at h'
      subst h'
      exact ⟨⟨[], by simp⟩, id, fun x hx => Or.inl hx, id,
        fun i hi => Option.noConfusion hi⟩
    | some id => exact Option.noConfusion h
  | succ f ih =>
    intro oid dest dest' h
    cases oid with
    | none =>
      have h' : some dest = some dest' := h
      rw [Option.some_inj] at h'
      subst h'
      exact ⟨⟨[], by simp⟩, id, fun x hx => Or.inl hx, id,
        fun i hi => Option.noConfusion hi⟩
    | some id =>
      cases hnd : snarl id with
      | none =>
        have h' : (none : Option (List NodeId)) = some dest' := by
          have h2 : (match snarl id with
            | none => none
            | some node =>
              match collectChildren (collect_for_node pred snarl f) (childIds node) dest with
              | none => none
              | some dest1 => some (if pred node then insertSet dest1 id else dest1)) =
              some dest' := h
          rw [hnd] at h2
          exact h2
        exact Option.noConfusion h'
      | some node =>
        have h2 : (match collectChildren (collect_for_node pred snarl f) (childIds node) dest with
            | none => none
            | some dest1 => some (if pred node then insertSet dest1 id else dest1)) =
            some dest' := by
          have h3 : (match snarl id with
            | none => none
            | some node =>
              match collectChildren (collect_for_node pred snarl f) (childIds node) dest with
              | none => none
              | some dest1 => some (if pred node then insertSet dest1 id else dest1)) =
              some dest' := h
          rw [hnd] at h3
          exact h3
        cases hch : collectChildren (collect_for_node pred snarl f) (childIds node) dest with
        | none =>
          rw [hch] at h2
          exact Option.noConfusion h2
        | some dest1 =>
          rw [hch] at h2
          rw [Option.some_inj] at h2
          obtain ⟨⟨s1, hs1⟩, hnodup1, hmem1, hgood1, hchildren⟩ :=
            collectChildren_inv pred snarl (collect_for_node pred snarl f)
              (fun oid d d' hfd => ih oid d d' hfd) (childIds node) dest dest1 hch
          have hreach1 : ∀ x, Reaches snarl id x → collectedB pred snarl x = true →
              x ∈ dest1 := by
            intro x hx hcol
            cases hx with
            | base hnd0 hb =>
              rename_i nd0
              have he : nd0 = node := by
                have h4 : some nd0 = some node := by rw [← hnd0, hnd]
                exact Option.some_inj.mp h4
              subst he
              exact (hchildren x hb).1 hcol
            | step hnd0 hb hr =>
              rename_i nd0 b
              have he : nd0 = node := by
                have h4 : some nd0 = some node := by rw [← hnd0, hnd]
                exact Option.some_inj.mp h4
              subst he
              exact (hchildren b hb).2 x hr hcol
          subst h2
          by_cases hp : pred node = true
          · rw [if_pos hp]
            obtain ⟨t, hins⟩ := insertSet_exists_suffix dest1 id
            refine ⟨⟨s1 ++ t, by rw [hins, hs1, List.append_assoc]⟩,
              fun h0 => nodup_insertSet _ _ (hnodup1 h0), ?_, ?_, ?_⟩
            · intro x hx
              rcases mem_insertSet.mp hx with hx1 | rfl
              · exact hmem1 x hx1
              · refine Or.inr ?_
                simp only [collectedB, hnd]
                exact hp
            · intro hg
              exact goodList_insertSet pred snarl (hgood1 hg) hreach1
            · intro i hi
              have he : id = i := Option.some_inj.mp hi
              subst he
              constructor
              · intro _
                exact mem_insertSet.mpr (Or.inr rfl)
              · intro x hx hcol
                rw [hins]
                exact List.mem_append_left _ (hreach1 x hx hcol)
          · rw [if_neg hp]
            refine ⟨⟨s1, hs1⟩, hnodup1, hmem1, hgood1, ?_⟩
            intro i hi
            have he : id = i := Option.some_inj.mp hi
            subst he
            constructor
            · intro hcol
              simp only [collectedB, hnd] at hcol
              exact absurd hcol hp
            · exact hreach1


lemma eq_of_append_cons (a : NodeId) :
    ∀ (p l1 r l2 : List NodeId), p ++ a :: r = l1 ++ a :: l2 → a ∉ p → a ∉ l1 → p = l1 := by
  intro p
  induction p with
  | nil =>
    intro l1 r l2 h _ hl1
    cases l1 with
    | nil => rfl
    | cons b t =>
      rw [List.nil_append, List.cons_append] at h
      injection h with h1 _
      subst h1
      exact absurd (List.mem_cons_self a t) hl1
  | cons x p ihp =>
    intro l1 r l2 h hp hl1
    cases l1 with
    | nil =>
      rw [List.nil_append, List.cons_append] at h
      injection h with h1 _
      subst h1
      exact absurd (List.mem_cons_self x p) hp
    | cons y t =>
      rw [List.cons_append, List.cons_append] at h
      injection h with h1 h2
      subst h1
      have hp' : a ∉ p := fun hmem => hp (List.mem_cons_of_mem _ hmem)
      have hl1' : a ∉ t := fun hmem => hl1 (List.mem_cons_of_mem _ hmem)
      rw [ihp t r l2 h2 hp' hl1']

/-- In a duplicate-free list split as `processed ++ n :: rest`, anything
before `n` lies in `processed`. -/
lemma before_mem_processed {full processed rest : List NodeId} {mid n : NodeId}
    (hL : full = processed ++ n :: rest) (hnodup : full.Nodup)
    (hb : Before full mid n) : mid ∈ processed := by
  obtain ⟨l1, l2, hsplit, hmid⟩ := hb
  have hn_p : n ∉ processed := by
    intro hmem
    exact List.disjoint_of_nodup_append (hL ▸ hnodup) hmem (List.mem_cons_self n rest)
  have hn_l1 : n ∉ l1 := by
    intro hmem
    exact List.disjoint_of_nodup_append (hsplit ▸ hnodup) hmem (List.mem_cons_self n l2)
  have heq : processed ++ n :: rest = l1 ++ n :: l2 := by rw [← hL, hsplit]
  rw [eq_of_append_cons n processed l1 rest l2 heq hn_p hn_l1]
  exact hmid

/-- One compile-loop step always succeeds (given the sphere-external lookup
hypothesis), never removes a material-index entry, and registers the node
when it is a Material node. -/
lemma compileStep_ok (snarl : Snarl) (st : CompileSt) (nodeId : NodeId) (nd : Node)
    (hnd : snarl nodeId = some nd)
    (hext : ∀ sn mid, nd = .primitive (.sphere sn) → sn.material.get = .external mid →
      (st.material_indices.lookup mid).isSome) :
    ∃ st1, compileStep snarl st nodeId = some st1 ∧
      (∀ k, (st.material_indices.lookup k).isSome →
        (st1.material_indices.lookup k).isSome) ∧
      (∀ mm, nd = .material mm → (st1.material_indices.lookup nodeId).isSome) := by
  cases nd with
  | texture tn =>
    cases h1 : st.textures.findIdx? (texEq tn.path tn.scale.get) with
    | some i =>
      have hst1 : compileStep snarl st nodeId =
          some { st with texture_indices := (nodeId, i) :: st.texture_indices } := by
        simp only [compileStep, hnd, h1]
      exact ⟨_, hst1, fun k hk => hk, fun mm hmm => Node.noConfusion hmm⟩
    | none =>
      cases h2 : st.oldTextures.findIdx? (texEq tn.path tn.scale.get) with
      | some j =>
        have hj : j < st.oldTextures.length :=
          (List.findIdx?_eq_some_iff_findIdx_eq.mp h2).1
        have hg : st.oldTextures[j]? = some st.oldTextures[j] :=
          List.getElem?_eq_getElem hj
        have hst1 : compileStep snarl st nodeId =
            some { st with
              oldTextures := st.oldTextures.eraseIdx j,
              textures := st.textures ++ [st.oldTextures[j]],
              texture_indices := (nodeId, st.textures.length) :: st.texture_indices } := by
          simp only [compileStep, hnd, h1, h2, hg]
        exact ⟨_, hst1, fun k hk => hk, fun mm hmm => Node.noConfusion hmm⟩
      | none =>
        have hst1 : compileStep snarl st nodeId =
            some { st with
              textures := st.textures ++ [TextureData.load_scaled tn.path tn.scale.get],
              texture_indices := (nodeId, st.textures.length) :: st.texture_indices,
              loads := st.loads ++ [(tn.path, tn.scale.get)] } := by
          simp only [compileStep, hnd, h1, h2]
        exact ⟨_, hst1, fun k hk => hk, fun mm hmm => Node.noConfusion hmm⟩
  | material mn =>
    have hst1 : compileStep snarl st nodeId =
        some { st with
          textures := (MaterialFlat.from_node mn
            (mn.get_texture_node_id.bind fun tid => st.texture_indices.lookup tid)
            st.textures).2,
          materials := st.materials ++ [(MaterialFlat.from_node mn
            (mn.get_texture_node_id.bind fun tid => st.texture_indices.lookup tid)
            st.textures).1],
          material_indices := (nodeId, st.materials.length) :: st.material_indices } := by
      simp only [compileStep, hnd]
    refine ⟨_, hst1, ?_, ?_⟩
    · intro k hk
      show (List.lookup k ((nodeId, st.materials.length) :: st.material_indices)).isSome
      by_cases hke : k = nodeId
      · subst hke
        simp [List.lookup]
      · have hbe : (k == nodeId) = false := beq_eq_false_iff_ne.mpr hke
        simp only [List.lookup, hbe]
        exact hk
    · intro mm _
      show (List.lookup nodeId ((nodeId, st.materials.length) :: st.material_indices)).isSome
      simp [List.lookup]
  | primitive pn =>
    cases pn with
    | sphere sn =>
      cases hm : sn.material.get with
      | internal mnode =>
        have hst1 : compileStep snarl st nodeId =
            some { st with
              textures := (MaterialFlat.from_node mnode
                (mnode.get_texture_node_id.bind fun tid => st.texture_indices.lookup tid)
                st.textures).2,
              materials := st.materials ++ [(MaterialFlat.from_node mnode
                (mnode.get_texture_node_id.bind fun tid => st.texture_indices.lookup tid)
                st.textures).1],
              spheres := st.spheres ++ [SphereFlat.from_node sn st.materials.length] } := by
          simp only [compileStep, hnd, hm]
        exact ⟨_, hst1, fun k hk => hk, fun mm hmm => Node.noConfusion hmm⟩
      | external mid =>
        obtain ⟨idx, hidx⟩ := Option.isSome_iff_exists.mp (hext sn mid rfl hm)
        have hst1 : compileStep snarl st nodeId =
            some { st with spheres := st.spheres ++ [SphereFlat.from_node sn idx] } := by
          simp only [compileStep, hnd, hm, hidx]
        exact ⟨_, hst1, fun k hk => hk, fun mm hmm => Node.noConfusion hmm⟩
  | collection c =>
    exact ⟨st, by simp only [compileStep, hnd], fun k hk => hk,
      fun mm hmm => Node.noConfusion hmm⟩
  | scene sc =>
    exact ⟨st, by simp only [compileStep, hnd], fun k hk => hk,
      fun mm hmm => Node.noConfusion hmm⟩
  | render a b =>
    exact ⟨st, by simp only [compileStep, hnd], fun k hk => hk,
      fun mm hmm => Node.noConfusion hmm⟩
  | other =>
    exact ⟨st, by simp only [compileStep, hnd], fun k hk => hk,
      fun mm hmm => Node.noConfusion hmm⟩

/-- The compile loop runs to completion on a children-before-parents ordered
node list whose sphere-external references point at Material nodes: in
particular the `material_indices[...]` lookup of every externally-wired
sphere succeeds. -/
lemma compileNodes_ok (snarl : Snarl) (full : List NodeId) (hnodup : full.Nodup)
    (hGood : GoodList scenePred snarl full)
    (hpres : ∀ n ∈ full, (snarl n).isSome)
    (hmat : ∀ n sn mid, n ∈ full → snarl n = some (.primitive (.sphere sn)) →
      sn.material.get = .external mid → ∃ m, snarl mid = some (.material m)) :
    ∀ L processed st, full = processed ++ L →
      (∀ m mm, m ∈ processed → snarl m = some (.material mm) →
        (st.material_indices.lookup m).isSome) →
      (compileNodes snarl L st).isSome := by
  intro L
  induction L with
  | nil =>
    intro processed st _ _
    rfl
  | cons n rest ihL =>
    intro processed st hfull hkeys
    have hnmem : n ∈ full := by
      rw [hfull]
      exact List.mem_append_right _ (List.mem_cons_self _ _)
    obtain ⟨nd, hnd⟩ := Option.isSome_iff_exists.mp (hpres n hnmem)
    have hext : ∀ sn mid, nd = .primitive (.sphere sn) → sn.material.get = .external mid →
        (st.material_indices.lookup mid).isSome := by
      intro sn mid hnd2 hm
      subst hnd2
      obtain ⟨m, hmid⟩ := hmat n sn mid hnmem hnd hm
      have hcol : collectedB scenePred snarl mid = true := by
        simp only [collectedB, hmid]
        rfl
      have hchild : mid ∈ childIds (.primitive (.sphere sn)) := by
        simp [childIds, hm]
      have hbefore : Before full mid n :=
        hGood n hnmem mid (Reaches.base hnd hchild) hcol
      exact hkeys mid m (before_mem_processed hfull hnodup hbefore) hmid
    obtain ⟨st1, hst1, hpreserve, hnew⟩ := compileStep_ok snarl st n nd hnd hext
    have hkeys1 : ∀ m mm, m ∈ processed ++ [n] → snarl m = some (.material mm) →
        (st1.material_indices.lookup m).isSome := by
      intro m mm hm hmm
      rcases List.mem_append.mp hm with hm | hm
      · exact hpreserve m (hkeys m mm hm hmm)
      · rw [List.mem_singleton] at hm
        subst hm
        rw [hnd] at hmm
        have he : nd = Node.material mm := Option.some_inj.mp hmm
        exact hnew mm he
    have hunfold : compileNodes snarl (n :: rest) st = compileNodes snarl rest st1 := by
      show (match compileStep snarl st n with
        | none => none
        | some st1 => compileNodes snarl rest st1) = compileNodes snarl rest st1
      rw [hst1]
    rw [hunfold]
    exact ihL (processed ++ [n]) st1 (by rw [hfull]; simp) hkeys1

/-- Claim C10: a completed dependency collection rooted at the Scene's input
is ordered children-before-parents — every collected node reachable from a
member through input edges occurs earlier in the list — and consequently,
whenever each sphere's external material reference points at a collected
Material node, the compile loop over that list runs to completion: the
material-index lookup for an externally-wired sphere cannot fail. -/
theorem collect_order_and_material_resolution (snarl : Snarl) (fuel : Nat)
    (root : NodeId) (L : List NodeId) (oldTextures : List TextureData)
    (hcol : collect_for_node scenePred snarl fuel (some root) [] = some L)
    (hmat : ∀ n sn mid, n ∈ L → snarl n = some (.primitive (.sphere sn)) →
      sn.material.get = .external mid → ∃ m, snarl mid = some (.material m)) :
    GoodList scenePred snarl L ∧
    (compileNodes snarl L (CompileSt.init oldTextures)).isSome := by
  obtain ⟨_, hnodup, hmem, hgood, _⟩ := collect_inv scenePred snarl fuel _ [] L hcol
  have hndL : L.Nodup := hnodup List.nodup_nil
  have hGood : GoodList scenePred snarl L :=
    hgood (fun n hn => absurd hn (List.not_mem_nil n))
  refine ⟨hGood, ?_⟩
  have hpres : ∀ n ∈ L, (snarl n).isSome := by
    intro n hn
    rcases hmem n hn with h | h
    · exact absurd h (List.not_mem_nil n)
    · simp only [collectedB] at h
      cases hs : snarl n with
      | none =>
        rw [hs] at h
        exact Bool.noConfusion h
      | some nd => rfl
  exact compileNodes_ok snarl L hndL hGood hpres hmat L [] (CompileSt.init oldTextures) rfl
    (fun m mm hm _ => absurd hm (List.not_mem_nil m))

/-- Witness for C10: the sphere-to-material graph collects to `[1, 0]` (the
material first), the ordering property holds, and compilation succeeds. -/
theorem collect_order_and_material_resolution_witness :
    GoodList scenePred snarlExt [1, 0] ∧
    (compileNodes snarlExt [1, 0] (CompileSt.init [])).isSome := by
  refine collect_order_and_material_resolution snarlExt 2 0 [1, 0] [] rfl ?_
  intro n sn mid hn hsn hm
  rcases List.mem_cons.mp hn with rfl | hn'
  · have h' : some (Node.material matLamb) = some (.primitive (.sphere sn)) := hsn
    injection h' with h'
    exact Node.noConfusion h'
  · rcases List.mem_cons.mp hn' with rfl | hn''
    · have h' : some (Node.primitive (.sphere sphereExt)) =
          some (.primitive (.sphere sn)) := hsn
      injection h' with h'
      injection h' with h'
      injection h' with h'
      subst h'
      have hm' : InputMaterial.external 1 = InputMaterial.external mid := hm
      injection hm' with hm'
      subst hm'
      exact ⟨matLamb, rfl⟩
    · exact absurd hn'' (List.not_mem_nil n)

end Noded
